import Mathlib

/-!
Shallow embedding of the rawm window manager (a dwm derivative) for
verification of its specification.  Pure functions of the C source are
translated into Lean functions; the stateful handlers become explicit
state-passing functions on record types mirroring the C structs.
C `int` becomes `Int` (with `Int.tdiv`/`Int.tmod` for C's truncating
`/` and `%`), C `unsigned int` bit masks become `Nat` with `&&&`, `|||`,
`^^^`, and C `float` becomes `ℚ` (exact rational arithmetic; every
float expression relevant to a proved theorem only involves values
represented exactly).
-/

namespace Rawm

/-! ## Compile-time configuration (config.def.h) -/

/-- Number of tags per monitor (`#define TAGS 9`). -/
def TAGS : Nat := 9

/-- Mask for all possible tags (`#define TAGMASK ((1 << TAGS) - 1)`). -/
def TAGMASK : Nat := (1 <<< TAGS) - 1

/-- Constant `#define NUMCOLORS 4` from config.def.h. -/
def NUMCOLORS : Nat := 4

/-- Config `static const float mfact = 0.55`. -/
def mfact0 : ℚ := 11 / 20

/-- Config `static const int nmaster = 1`. -/
def nmaster0 : Int := 1

/-- Config `static const bool showbar = true`. -/
def showbar0 : Bool := true

/-- Config `static const bool resizehints = false`. -/
def resizehints0 : Bool := false

/-- The value of the 32-bit unsigned constant `~0`. -/
def UINTMAX : Nat := 2 ^ 32 - 1

/-- Layouts are identified by their index in the `layouts` table of
config.def.h; pointer comparison in the C source coincides with index
equality because every layout pointer is `&layouts[i]`.
`layoutHasArrange i` is true iff `layouts[i].arrange != NULL`; only
index 1 (`"<1/1>"`, floating) has a NULL arrange function. -/
def layoutHasArrange (i : Nat) : Bool := i != 1

/-- Symbols of the `layouts` table of config.def.h, by index. -/
def layoutSymbol (i : Nat) : String :=
  match i with
  | 0 => "[]="
  | 1 => "<1/1>"
  | 2 => "[1/1]"
  | 3 => "TTT"
  | 4 => "==="
  | 5 => "###"
  | _ => ""

/-- Default layout index of each tag of monitor 0, from the `tags`
table in config.def.h (`tags[0][i].layout_idx`). -/
def tagLayoutIdx (i : Nat) : Nat :=
  match i with
  | 0 => 2
  | 1 => 0
  | 2 => 5
  | 3 => 0
  | 4 => 0
  | 5 => 0
  | 6 => 0
  | 7 => 0
  | 8 => 2
  | _ => 0

/-! ## Geometry model

Records mirroring the geometry-relevant fields of `struct Client` and
`struct Monitor`, plus the globals consumed by `applysizehints`
(`sw`, `sh`, `bh`, config `resizehints`).  Fields that only feed X11
calls (window ids, names, colors) are omitted. -/

/-- Geometry-relevant fields of `struct Client`. -/
structure GClient where
  x : Int
  y : Int
  w : Int
  h : Int
  oldx : Int
  oldy : Int
  oldw : Int
  oldh : Int
  basew : Int
  baseh : Int
  incw : Int
  inch : Int
  maxw : Int
  maxh : Int
  minw : Int
  minh : Int
  bw : Int
  oldbw : Int
  mina : ℚ
  maxa : ℚ
  tags : Nat
  isfloating : Bool
  oldstate : Bool
  isfullscreen : Bool
  deriving DecidableEq

/-- Geometry-relevant fields of `struct Monitor`: outer rectangle,
work area, layout parameters, displayed tagset, and whether the
currently selected layout has a NULL arrange function
(`!m->lt[m->sellt]->arrange`). -/
structure GMon where
  mx : Int
  my : Int
  mw : Int
  mh : Int
  wx : Int
  wy : Int
  ww : Int
  wh : Int
  mfact : ℚ
  nmaster : Int
  tagset : Nat
  ltFloating : Bool
  deriving DecidableEq

/-- Globals read by `applysizehints`: screen size `sw`/`sh`, bar
height `bh`, and the `resizehints` config flag. -/
structure Env where
  sw : Int
  sh : Int
  bh : Int
  resizehints : Bool
  deriving DecidableEq

/-- Macro `#define WIDTH(X) ((X)->w + 2 * (X)->bw)`. -/
def cWIDTH (c : GClient) : Int := c.w + 2 * c.bw

/-- Macro `#define HEIGHT(X) ((X)->h + 2 * (X)->bw)`. -/
def cHEIGHT (c : GClient) : Int := c.h + 2 * c.bw

/-- Macro `#define ISVISIBLE(C) ((C->tags & C->mon->tagset[C->mon->seltags]))`. -/
def isvisible (m : GMon) (c : GClient) : Bool := c.tags &&& m.tagset != 0

/-- C cast `(int)` of a float expression truncates toward zero; on the
rationals this is `Rat.num / Rat.den` with truncating integer
division. -/
def ratTrunc (q : ℚ) : Int := Int.tdiv q.num q.den

/-- The size-hints block of `applysizehints` (the body of the
`if (resizehints || c->isfloating || !...->arrange)` branch),
transforming the proposed `(w, h)`. -/
def applyHintsBlock (c : GClient) (w h : Int) : Int × Int :=
  -- see last two sentences in ICCCM 4.1.2.3
  let baseismin : Bool := c.basew == c.minw && c.baseh == c.minh
  -- temporarily remove base dimensions
  let w := if !baseismin then w - c.basew else w
  let h := if !baseismin then h - c.baseh else h
  -- adjust for aspect limits
  let wh' :=
    if c.mina > 0 && c.maxa > 0 then
      if c.maxa < (w : ℚ) / (h : ℚ) then (ratTrunc ((h : ℚ) * c.maxa + 1/2), h)
      else if c.mina < (h : ℚ) / (w : ℚ) then (w, ratTrunc ((w : ℚ) * c.mina + 1/2))
      else (w, h)
    else (w, h)
  let w := wh'.1
  let h := wh'.2
  -- increment calculation requires this
  let w := if baseismin then w - c.basew else w
  let h := if baseismin then h - c.baseh else h
  -- adjust for increment value
  let w := if c.incw ≠ 0 then w - Int.tmod w c.incw else w
  let h := if c.inch ≠ 0 then h - Int.tmod h c.inch else h
  -- restore base dimensions
  let w := max (w + c.basew) c.minw
  let h := max (h + c.baseh) c.minh
  let w := if c.maxw ≠ 0 then min w c.maxw else w
  let h := if c.maxh ≠ 0 then min h c.maxh else h
  (w, h)

/-- Function `applysizehints(c, &x, &y, &w, &h, interact)`: returns the
normalized `(x, y, w, h)` together with the C function's boolean
result (whether the rectangle differs from the client's current
geometry). -/
def applysizehints (e : Env) (m : GMon) (c : GClient) (x y w h : Int)
    (interact : Bool) : Bool × Int × Int × Int × Int :=
  -- set minimum possible
  let w := max 1 w
  let h := max 1 h
  let xy :=
    if interact then
      let x := if x > e.sw then e.sw - cWIDTH c else x
      let y := if y > e.sh then e.sh - cHEIGHT c else y
      let x := if x + w + 2 * c.bw < 0 then 0 else x
      let y := if y + h + 2 * c.bw < 0 then 0 else y
      (x, y)
    else
      let x := if x ≥ m.wx + m.ww then m.wx + m.ww - cWIDTH c else x
      let y := if y ≥ m.wy + m.wh then m.wy + m.wh - cHEIGHT c else y
      let x := if x + w + 2 * c.bw ≤ m.wx then m.wx else x
      let y := if y + h + 2 * c.bw ≤ m.wy then m.wy else y
      (x, y)
  let x := xy.1
  let y := xy.2
  let h := if h < e.bh then e.bh else h
  let w := if w < e.bh then e.bh else w
  let wh' :=
    if e.resizehints || c.isfloating || m.ltFloating then
      applyHintsBlock c w h
    else (w, h)
  let w := wh'.1
  let h := wh'.2
  (x ≠ c.x || y ≠ c.y || w ≠ c.w || h ≠ c.h, x, y, w, h)

/-- The client-field updates of `resizeclient(c, x, y, w, h)` (the X11
configure call is outside the model). -/
def resizeclient (c : GClient) (x y w h : Int) : GClient :=
  { c with
    oldx := c.x, x := x
    oldy := c.y, y := y
    oldw := c.w, w := w
    oldh := c.h, h := h }

/-- Function `resize(c, x, y, w, h, interact)`. -/
def resize (e : Env) (m : GMon) (c : GClient) (x y w h : Int)
    (interact : Bool) : GClient :=
  let r := applysizehints e m c x y w h interact
  if r.1 then resizeclient c r.2.1 r.2.2.1 r.2.2.2.1 r.2.2.2.2 else c

/-- The `nexttiled` iteration: the sublist of clients that are neither
floating nor invisible, in list order. -/
def tiledClients (m : GMon) (cs : List GClient) : List GClient :=
  cs.filter (fun c => !c.isfloating && isvisible m c)

/-- The body of the arranging loop of `tile(Monitor *m)`: `i`, `my`,
`ty` are the loop accumulators, `n` the tiled-client count, `mw` the
master width.  Returns the resized tiled clients in list order. -/
def tileLoop (e : Env) (m : GMon) (n mw : Int) :
    List GClient → Int → Int → Int → List GClient
  | [], _, _, _ => []
  | c :: cs, i, my, ty =>
    if i < m.nmaster then
      let h := Int.tdiv (m.wh - my) (min n m.nmaster - i)
      let c := resize e m c m.wx (m.wy + my) (mw - 2 * c.bw) (h - 2 * c.bw) false
      c :: tileLoop e m n mw cs (i + 1) (my + cHEIGHT c) ty
    else
      let h := Int.tdiv (m.wh - ty) (n - i)
      let c := resize e m c (m.wx + mw) (m.wy + ty) (m.ww - mw - 2 * c.bw)
        (h - 2 * c.bw) false
      c :: tileLoop e m n mw cs (i + 1) my (ty + cHEIGHT c)

/-- The master-width computation of `tile`:
`n > m->nmaster ? (m->nmaster ? m->ww * m->mfact : 0) : m->ww`. -/
def tileMW (m : GMon) (n : Int) : Int :=
  if n > m.nmaster then
    if m.nmaster ≠ 0 then ratTrunc ((m.ww : ℚ) * m.mfact) else 0
  else m.ww

/-- Function `tile(Monitor *m)`, acting on the monitor's client list; the
result is the new geometry of the tiled (visible non-floating)
clients in list order.  Clients skipped by `nexttiled` are untouched
by the C function and are not returned. -/
def tile (e : Env) (m : GMon) (cs : List GClient) : List GClient :=
  let tl := tiledClients m cs
  let n : Int := tl.length
  if n = 0 then []
  else tileLoop e m n (tileMW m n) tl 0 0 0

/-! ## gaplessgrid -/

/-- The grid-dimension loop of `gaplessgrid`:
`for (cols = 0; cols <= n/2; cols++) if ((cols * cols) >= n) break;`
returns the value of `cols` on exit, starting from `c`. -/
def ggColsAux (n c : Nat) : Nat :=
  if c ≤ n / 2 then
    if c * c ≥ n then c else ggColsAux n (c + 1)
  else c
termination_by n / 2 + 1 - c

/-- The column count chosen by `gaplessgrid` for `n` clients: the loop
result, overridden to 2 by the `n == 5` special case. -/
def ggCols (n : Nat) : Nat :=
  let cols := ggColsAux n 0
  if n = 5 then 2 else cols

/-- The loop variables `rows`, `rn` (current row), `cn` (current
column) of the arranging loop of `gaplessgrid`. -/
structure GGState where
  rows : Nat
  rn : Nat
  cn : Nat
  deriving DecidableEq

/-- One iteration of the arranging loop of `gaplessgrid`, for client
index `i`: first component is the state used to place client `i`
(after the `rows` growth test), second is the state passed to the next
iteration. -/
def ggStep (n cols i : Nat) (s : GGState) : GGState × GGState :=
  let rows := if i / s.rows + 1 > cols - n % cols then n / cols + 1 else s.rows
  let cur : GGState := ⟨rows, s.rn, s.cn⟩
  (cur, if s.rn + 1 ≥ rows then ⟨rows, 0, s.cn + 1⟩ else ⟨rows, s.rn + 1, s.cn⟩)

/-- The loop state of `gaplessgrid` before processing client `i`
(`rows` is initialized to `n / cols` before the loop). -/
def ggState (n cols : Nat) : Nat → GGState
  | 0 => ⟨n / cols, 0, 0⟩
  | i + 1 => (ggStep n cols i (ggState n cols i)).2

/-- The geometry part of the arranging loop of `gaplessgrid`. -/
def ggLoop (e : Env) (m : GMon) (n cols : Nat) (cw : Int) :
    List GClient → Nat → GGState → List GClient
  | [], _, _ => []
  | c :: cs, i, s =>
    let p := ggStep n cols i s
    let cur := p.1
    let ch : Int := if cur.rows ≠ 0 then Int.tdiv m.wh cur.rows else m.wh
    let cx : Int := m.wx + (cur.cn : Int) * cw
    let cy : Int := m.wy + (cur.rn : Int) * ch
    let c := resize e m c cx cy (cw - 2 * c.bw) (ch - 2 * c.bw) false
    c :: ggLoop e m n cols cw cs (i + 1) p.2

/-- Function `gaplessgrid(Monitor *m)`, acting on the monitor's client list;
result is the new geometry of the tiled clients in list order. -/
def gaplessgrid (e : Env) (m : GMon) (cs : List GClient) : List GClient :=
  let tl := tiledClients m cs
  let n := tl.length
  if n = 0 then []
  else
    let cols := ggCols n
    let cw : Int := if cols ≠ 0 then Int.tdiv m.ww cols else m.ww
    ggLoop e m n cols cw tl 0 ⟨n / cols, 0, 0⟩

/-! ## Fullscreen (`setfullscreen`, `clientmessage`) -/

/-- The client-state updates of `setfullscreen(c, fullscreen)`
(property writes and restacking are X11 calls outside the model;
`resizeclient` is the same helper the C function calls). -/
def setfullscreen (m : GMon) (c : GClient) (fullscreen : Bool) : GClient :=
  if fullscreen then
    let c := { c with
      isfullscreen := true
      oldstate := c.isfloating
      oldbw := c.bw
      bw := 0
      isfloating := true }
    resizeclient c m.mx m.my m.mw m.mh
  else
    let c := { c with
      isfullscreen := false
      isfloating := c.oldstate
      bw := c.oldbw
      x := c.oldx
      y := c.oldy
      w := c.oldw
      h := c.oldh }
    resizeclient c c.x c.y c.w c.h

/-- The `_NET_WM_STATE` fullscreen dispatch of `clientmessage`:
`d0` is `cme->data.l[0]` (1 = add, 0 = remove, 2 = toggle). -/
def clientmessageFullscreen (m : GMon) (c : GClient) (d0 : Int) : GClient :=
  setfullscreen m c (d0 == 1 || (d0 == 2 && !c.isfullscreen))

/-! ## Tag / layout state model

`WMon` mirrors the fields of `struct Monitor` and `struct Pertag`
touched by `view`, `toggleview`, `setlayout`, `setmfact` and
`togglebar`.  The pertag arrays (size `TAGS + 1` in C) are modelled as
functions from the index. -/

/-- Mirror of `struct Pertag`. -/
@[ext] structure Pertag where
  curtag : Nat
  prevtag : Nat
  nmasters : Nat → Int
  mfacts : Nat → ℚ
  sellts : Nat → Nat
  ltidxs : Nat → Nat → Nat
  showbars : Nat → Bool

/-- The tag/layout fields of `struct Monitor`.  `lt` holds layout
indices (`lt[2]` in C); `seltags` is the 0/1 index as a boolean. -/
@[ext] structure WMon where
  tagset0 : Nat
  tagset1 : Nat
  seltags : Bool
  nmaster : Int
  mfact : ℚ
  sellt : Nat
  lt : Nat → Nat
  showbar : Bool
  ltsymbol : String
  pertag : Pertag

/-- Value of `m->tagset[m->seltags]`, the displayed tagset. -/
def curtags (m : WMon) : Nat := if m.seltags then m.tagset1 else m.tagset0

/-- Assignment `m->tagset[m->seltags] = v`. -/
def setCurtags (m : WMon) (v : Nat) : WMon :=
  if m.seltags then { m with tagset1 := v } else { m with tagset0 := v }

/-- Index of the lowest set bit: the loop
`for (i = 0; !(arg->ui & 1 << i); i++);` of `view` (which the C code
only runs on a nonzero argument; on 0 the C loop would not
terminate and this function returns 0). -/
def lsb (n : Nat) : Nat :=
  if h : n = 0 then 0
  else if n % 2 = 1 then 0
  else lsb (n / 2) + 1
decreasing_by exact Nat.div_lt_self (Nat.pos_of_ne_zero h) one_lt_two

/-- The state effect of `togglebar(NULL)` on the modelled fields
(`showbar` and the pertag `showbars` slot; bar geometry is outside the
model). -/
def togglebarLite (m : WMon) : WMon :=
  let sb := !m.showbar
  { m with
    showbar := sb
    pertag := { m.pertag with
      showbars := fun t => if t = m.pertag.curtag then sb else m.pertag.showbars t } }

/-- The per-view settings reload shared by the tails of `view` and
`toggleview`: `nmaster`, `mfact`, `sellt`, both `lt` slots are loaded
from the pertag arrays, then `togglebar` is invoked on a `showbar`
mismatch. -/
def pertagReload (m : WMon) : WMon :=
  let ct := m.pertag.curtag
  let slt := m.pertag.sellts ct
  let m := { m with
    nmaster := m.pertag.nmasters ct
    mfact := m.pertag.mfacts ct
    sellt := slt
    lt := fun j =>
      if j = slt then m.pertag.ltidxs ct slt
      else if j = slt ^^^ 1 then m.pertag.ltidxs ct (slt ^^^ 1)
      else m.lt j }
  if m.showbar ≠ m.pertag.showbars m.pertag.curtag then togglebarLite m else m

/-- Handler `view(const Arg *arg)` with `ui = arg->ui` (a 32-bit unsigned
value; `~0` is `UINTMAX`).  The trailing `focus(NULL)`/`arrange`
calls do not touch the modelled fields. -/
def view (ui : Nat) (m : WMon) : WMon :=
  if ui &&& TAGMASK = curtags m then m
  else
    let m := { m with seltags := !m.seltags }
    let m :=
      if ui &&& TAGMASK ≠ 0 then
        let m := { m with pertag := { m.pertag with prevtag := m.pertag.curtag } }
        let m := setCurtags m (ui &&& TAGMASK)
        { m with pertag := { m.pertag with
          curtag := if ui = UINTMAX then 0 else lsb ui + 1 } }
      else
        { m with pertag := { m.pertag with
          prevtag := m.pertag.curtag
          curtag := m.pertag.prevtag } }
    pertagReload m

/-- Handler `setlayout(const Arg *arg)`: `arg = none` models both a NULL `arg`
and a NULL `arg->v`; `some i` is `&layouts[i]` (pointer equality is
index equality). -/
def setlayout (arg : Option Nat) (m : WMon) : WMon :=
  let m :=
    if arg ≠ some (m.lt m.sellt) then
      let ns := m.pertag.sellts m.pertag.curtag ^^^ 1
      { m with
        pertag := { m.pertag with
          sellts := fun t => if t = m.pertag.curtag then ns else m.pertag.sellts t }
        sellt := ns }
    else m
  let m :=
    match arg with
    | some v =>
      { m with pertag := { m.pertag with
        ltidxs := fun t s =>
          if t = m.pertag.curtag ∧ s = m.sellt then v else m.pertag.ltidxs t s } }
    | none => m
  let m := { m with lt := fun j =>
    if j = m.sellt then m.pertag.ltidxs m.pertag.curtag m.sellt else m.lt j }
  { m with ltsymbol := layoutSymbol (m.lt m.sellt) }

/-- Handler `setmfact(const Arg *arg)` with `f = arg->f` (the NULL-`arg` guard
is outside the model: every configured binding passes an argument). -/
def setmfact (f : ℚ) (m : WMon) : WMon :=
  if !layoutHasArrange (m.lt m.sellt) then m
  else
    let fp := if f < 1 then f + m.mfact else f - 1
    if fp < 1/10 ∨ fp > 9/10 then m
    else
      { m with
        mfact := fp
        pertag := { m.pertag with
          mfacts := fun t => if t = m.pertag.curtag then fp else m.pertag.mfacts t } }

/-! ## toggleview: the bit test `1 << (curtag - 1)` -/

/-- Value `newtagset = selmon->tagset[selmon->seltags] ^ (arg->ui & TAGMASK)`
in `toggleview`. -/
def toggleviewNewtagset (ui : Nat) (m : WMon) : Nat :=
  curtags m ^^^ (ui &&& TAGMASK)

/-- The value of `selmon->pertag->curtag` at the moment `toggleview`
evaluates `newtagset & 1 << (selmon->pertag->curtag - 1)`, or `none`
when that expression is not reached (`if (!newtagset) return;`).  The
preceding `if (newtagset == ~0)` branch (which zeroes `curtag`) is
included. -/
def toggleviewCurtagAtShift (ui : Nat) (m : WMon) : Option Nat :=
  let nts := toggleviewNewtagset ui m
  if nts = 0 then none
  else some (if nts = UINTMAX then 0 else m.pertag.curtag)

/-- The value of the shift-count expression `curtag - 1`: `curtag` has
C type `unsigned int`, so the subtraction wraps modulo `2^32`. -/
def cShiftAmount (curtag : Nat) : Nat := (curtag + UINTMAX) % 2 ^ 32

/-! ## The initial monitor state (`createmon(0)`) -/

/-- The pertag record built by `createmon` for monitor 0. -/
def initPertag : Pertag :=
  { curtag := 1
    prevtag := 1
    nmasters := fun _ => nmaster0
    mfacts := fun _ => mfact0
    sellts := fun _ => 0
    ltidxs := fun t s =>
      if t = 0 then (if s = 0 then 5 else 2)
      else if s = 0 then tagLayoutIdx (t - 1) else 1
    showbars := fun _ => showbar0 }

/-- The monitor state built by `createmon(0)` (`calloc` zeroes
`seltags` and `sellt`; `tagset[0] = tagset[1] = 1`). -/
def initMon : WMon :=
  { tagset0 := 1
    tagset1 := 1
    seltags := false
    nmaster := nmaster0
    mfact := mfact0
    sellt := 0
    lt := fun j => if j = 0 then tagLayoutIdx 0 else if j = 1 then 1 else 0
    showbar := showbar0
    ltsymbol := layoutSymbol 0
    pertag := initPertag }

/-! ## Colored status text (`drawcoloredtext`) -/

/-- The signed value of a text byte (`char` is signed on the reference
platform: `*ptr < 0` holds for bytes `0x80..0xff`). -/
def charSigned (b : Nat) : Int := if b < 128 then (b : Int) else (b : Int) - 256

/-- Negation of the scan condition of the inner loop of
`drawcoloredtext` (`for (i = 0; *ptr < 0 || *ptr > NUMCOLORS; ...)`):
true iff the scan stops at this byte. -/
def stopsScan (b : Nat) : Bool :=
  !(charSigned b < 0 || charSigned b > (NUMCOLORS : Int))

/-- Function `drawcoloredtext(char *text)`, modelled as the sequence of
`drawtext` calls it makes: each element is (bytes drawn, index into
`dc.colors`).  `col` is the current color index (initially 0:
`XftColor *col = dc.colors[0]`), `buf` the pending chunk.  A byte in
`1..NUMCOLORS` ends the chunk (drawn only if nonempty, as the C code
tests `if (i)`) and switches to `dc.colors[c-1]`; a 0 byte is the C
string terminator; the trailing chunk is always drawn
(`drawtext(buf, col, true)` after the loop).  The `dc.x` cursor
arithmetic produces no drawn text and is outside the model. -/
def drawcoloredtext : List Nat → Nat → List Nat → List (List Nat × Nat)
  | [], col, buf => [(buf, col)]
  | b :: bs, col, buf =>
    if stopsScan b then
      if b = 0 then [(buf, col)]
      else (if buf ≠ [] then [(buf, col)] else []) ++ drawcoloredtext bs (b - 1) []
    else drawcoloredtext bs col (buf ++ [b])

/-! ## tag / toggletag -/

/-- The clients of a monitor (as their tag masks) together with the
selected client `selmon->sel` (as an index, `none` for NULL). -/
structure TagState where
  clients : List Nat
  sel : Option Nat
  deriving DecidableEq

/-- Handler `tag(const Arg *arg)`: retags the selected client when there is
one and the masked argument is nonempty; the `focus(NULL)` and
`arrange` calls happen only inside the guard and touch no modelled
field. -/
def tagFn (ui : Nat) (s : TagState) : TagState :=
  match s.sel with
  | some i =>
    if ui &&& TAGMASK ≠ 0 then { s with clients := s.clients.set i (ui &&& TAGMASK) } else s
  | none => s

/-- Handler `toggletag(const Arg *arg)`. -/
def toggletagFn (ui : Nat) (s : TagState) : TagState :=
  match s.sel with
  | none => s
  | some i =>
    let newtags := s.clients.getD i 0 ^^^ (ui &&& TAGMASK)
    if newtags ≠ 0 then { s with clients := s.clients.set i newtags } else s

/-! ## Concrete fixtures used by witnesses and counterexamples -/

/-- A borderless tiled client on tag 1 without size hints. -/
def cl0 : GClient :=
  { x := 0, y := 0, w := 100, h := 100, oldx := 0, oldy := 0, oldw := 0, oldh := 0
    basew := 0, baseh := 0, incw := 0, inch := 0, maxw := 0, maxh := 0
    minw := 0, minh := 0, bw := 0, oldbw := 0, mina := 0, maxa := 0
    tags := 1, isfloating := false, oldstate := false, isfullscreen := false }

/-- A monitor with work area `(0,0,1000,600)`, `mfact = 0.5`,
`nmaster = 1`, a tiled layout selected, showing tag 1. -/
def mon0 : GMon :=
  { mx := 0, my := 0, mw := 1000, mh := 600, wx := 0, wy := 0, ww := 1000, wh := 600
    mfact := 1/2, nmaster := 1, tagset := 1, ltFloating := false }

/-- Globals with a bar height of 13 pixels and `resizehints` off. -/
def env0 : Env := { sw := 1000, sh := 600, bh := 13, resizehints := false }

/-! ## Helper lemmas -/

/-- The tagset slot not currently displayed, `m->tagset[m->seltags^1]`. -/
def othertags (m : WMon) : Nat := if m.seltags then m.tagset0 else m.tagset1

theorem pertagReload_tagset0 (m : WMon) : (pertagReload m).tagset0 = m.tagset0 := by
  unfold pertagReload togglebarLite
  dsimp only
  split <;> rfl

theorem pertagReload_tagset1 (m : WMon) : (pertagReload m).tagset1 = m.tagset1 := by
  unfold pertagReload togglebarLite
  dsimp only
  split <;> rfl

theorem pertagReload_seltags (m : WMon) : (pertagReload m).seltags = m.seltags := by
  unfold pertagReload togglebarLite
  dsimp only
  split <;> rfl

theorem curtags_pertagReload (m : WMon) : curtags (pertagReload m) = curtags m := by
  unfold curtags
  rw [pertagReload_tagset0, pertagReload_tagset1, pertagReload_seltags]

theorem othertags_pertagReload (m : WMon) : othertags (pertagReload m) = othertags m := by
  unfold othertags
  rw [pertagReload_tagset0, pertagReload_tagset1, pertagReload_seltags]

/-- Effect of `view` on the two tagset slots, for a nonzero masked
argument differing from the displayed tagset. -/
theorem view_tagsets (ui : Nat) (m : WMon)
    (h1 : ui &&& TAGMASK ≠ curtags m) (h2 : ui &&& TAGMASK ≠ 0) :
    curtags (view ui m) = ui &&& TAGMASK ∧ othertags (view ui m) = curtags m := by
  unfold view
  simp only [if_neg h1, if_pos h2]
  rw [curtags_pertagReload, othertags_pertagReload]
  cases hs : m.seltags <;>
    simp [curtags, othertags, setCurtags, hs]

/-- Effect of `view(0)` on the two tagset slots: they swap roles. -/
theorem view_zero_tagsets (m : WMon) (h : curtags m ≠ 0) :
    curtags (view 0 m) = othertags m ∧ othertags (view 0 m) = curtags m := by
  unfold view
  have h0 : (0 : Nat) &&& TAGMASK = 0 := by decide
  simp only [h0, if_neg (Ne.symm h), ne_eq, not_true_eq_false, if_false]
  rw [curtags_pertagReload, othertags_pertagReload]
  cases hs : m.seltags <;>
    simp [curtags, othertags, hs]

/-! ## C2 -/

/-- C2: for every monitor and tag masks `X`, `Y` that are non-empty
subsets of `TAGMASK`, with `X` different from the displayed tagset and
`Y` different from `X`, `view(X); view(Y); view(0)` leaves the
displayed tagset equal to `X`: `view(0)` swaps the current tagset with
the previous one. -/
theorem C2_view_swap_restores (m : WMon) (X Y : Nat)
    (hX : X &&& TAGMASK = X) (hX0 : X ≠ 0)
    (hY : Y &&& TAGMASK = Y) (hY0 : Y ≠ 0)
    (hXne : X ≠ curtags m) (hYX : Y ≠ X) :
    curtags (view 0 (view Y (view X m))) = X := by
  obtain ⟨c1, o1⟩ := view_tagsets X m (by rw [hX]; exact hXne) (by rw [hX]; exact hX0)
  rw [hX] at c1
  obtain ⟨c2, o2⟩ := view_tagsets Y (view X m) (by rw [hY, c1]; exact hYX)
    (by rw [hY]; exact hY0)
  rw [hY] at c2
  obtain ⟨c3, o3⟩ := view_zero_tagsets (view Y (view X m)) (by rw [c2]; exact hY0)
  rw [c3, o2, c1]

/-- Witness for C2: from the initial state (displaying tag mask 1),
`view(2); view(4); view(0)` displays tag mask 2. -/
theorem C2_view_swap_restores_witness :
    curtags (view 0 (view 4 (view 2 initMon))) = 2 :=
  C2_view_swap_restores initMon 2 4 (by decide) (by decide) (by decide) (by decide)
    (by decide) (by decide)

/-! ## C4 -/

/-- C4: a `_NET_WM_STATE` message adding fullscreen (data[0] = 1) sets
the client geometry to the monitor's full outer rectangle with border
width 0 and `isfloating = true`; a subsequent message removing
fullscreen (data[0] = 0) restores the pre-fullscreen `x`, `y`, `w`,
`h`, border width and `isfloating` flag exactly. -/
theorem C4_fullscreen_roundtrip (m : GMon) (c : GClient) :
    (clientmessageFullscreen m c 1).x = m.mx ∧
    (clientmessageFullscreen m c 1).y = m.my ∧
    (clientmessageFullscreen m c 1).w = m.mw ∧
    (clientmessageFullscreen m c 1).h = m.mh ∧
    (clientmessageFullscreen m c 1).bw = 0 ∧
    (clientmessageFullscreen m c 1).isfloating = true ∧
    (clientmessageFullscreen m (clientmessageFullscreen m c 1) 0).x = c.x ∧
    (clientmessageFullscreen m (clientmessageFullscreen m c 1) 0).y = c.y ∧
    (clientmessageFullscreen m (clientmessageFullscreen m c 1) 0).w = c.w ∧
    (clientmessageFullscreen m (clientmessageFullscreen m c 1) 0).h = c.h ∧
    (clientmessageFullscreen m (clientmessageFullscreen m c 1) 0).bw = c.bw ∧
    (clientmessageFullscreen m (clientmessageFullscreen m c 1) 0).isfloating
      = c.isfloating := by
  simp [clientmessageFullscreen, setfullscreen, resizeclient]

/-! ## C9 -/

/-- C9: the claim that `toggleview` only evaluates
`1 << (curtag - 1)` with `curtag ≥ 1` fails: from the initial state,
`view(~0)` (bound to Mod+0 in config.def.h) sets `curtag = 0`, and a
following `toggleview(1)` (Mod+Ctrl+1) produces the non-empty new
tagset `0x1FE` and evaluates the bit test with `curtag = 0`, an
out-of-range shift count (`curtag - 1` wraps to `2^32 - 1`). -/
theorem C9_toggleview_negative_shift :
    toggleviewNewtagset 1 (view UINTMAX initMon) = 510 ∧
    toggleviewNewtagset 1 (view UINTMAX initMon) ≠ 0 ∧
    toggleviewCurtagAtShift 1 (view UINTMAX initMon) = some 0 ∧
    cShiftAmount 0 = UINTMAX ∧
    ¬cShiftAmount 0 ≤ 31 := by
  refine ⟨by decide, by decide, by decide, by decide, by decide⟩

/-! ## C6 -/

/-- The claim's reading of the status-text escapes fails on the code:
for input bytes `0x01 "A" 0x02 "B"`, `drawcoloredtext` draws "A"
(byte 65) with `dc.colors[0]` and "B" (byte 66) with `dc.colors[1]`,
not with schemes 1 and 2. -/
theorem C6_colors_cex :
    drawcoloredtext [1, 65, 2, 66] 0 [] = [([65], 0), ([66], 1)] ∧
    drawcoloredtext [1, 65, 2, 66] 0 [] ≠ [([65], 1), ([66], 2)] := by
  refine ⟨by decide, by decide⟩

theorem dct_append_nonstop (pre : List Nat) :
    ∀ (bs : List Nat) (col : Nat) (acc : List Nat),
      (∀ x ∈ pre, stopsScan x = false) →
      drawcoloredtext (pre ++ bs) col acc = drawcoloredtext bs col (acc ++ pre) := by
  induction pre with
  | nil => intro bs col acc _; simp
  | cons b pre ih =>
    intro bs col acc h
    have hb : stopsScan b = false := h b (by simp)
    have hrest : ∀ x ∈ pre, stopsScan x = false := fun x hx => h x (by simp [hx])
    simp only [List.cons_append, drawcoloredtext, hb, Bool.false_eq_true, if_false,
      List.append_eq]
    rw [ih bs col (acc ++ [b]) hrest]
    simp

theorem dct_chunks_nonstop (bs : List Nat) :
    ∀ (col : Nat) (acc : List Nat), (∀ x ∈ acc, stopsScan x = false) →
      ∀ seg ∈ drawcoloredtext bs col acc, ∀ x ∈ seg.1, stopsScan x = false := by
  induction bs with
  | nil =>
    intro col acc h seg hseg
    simp only [drawcoloredtext, List.mem_singleton] at hseg
    subst hseg
    exact h
  | cons b bs ih =>
    intro col acc h seg hseg
    by_cases hb : stopsScan b
    · by_cases hb0 : b = 0
      · subst hb0
        simp only [drawcoloredtext, hb, if_true] at hseg
        simp only [List.mem_singleton] at hseg
        subst hseg
        exact h
      · simp only [drawcoloredtext, hb, if_true, if_neg hb0, List.mem_append] at hseg
        rcases hseg with hseg | hseg
        · by_cases hacc : acc = []
          · simp [hacc] at hseg
          · simp only [hacc, ne_eq, not_false_eq_true, if_true,
              List.mem_singleton] at hseg
            subst hseg
            exact h
        · exact ih (b - 1) [] (by simp) seg hseg
    · have hb' : stopsScan b = false := by simpa using hb
      simp only [drawcoloredtext, hb', Bool.false_eq_true, if_false] at hseg
      refine ih col (acc ++ [b]) ?_ seg hseg
      intro x hx
      rcases List.mem_append.mp hx with hx | hx
      · exact h x hx
      · simp at hx
        subst hx
        exact hb'


/-- C6 (amended): bytes `1..NUMCOLORS` act as in-band color-switch
escapes and are never part of a drawn chunk; the text before the first
escape is drawn in color scheme 0, and the text following an escape
byte `b` is drawn in color scheme `b - 1` (so `0x01 "A" 0x02 "B"`
draws "A" in scheme 0 and "B" in scheme 1). -/
theorem C6_colors_amended :
    drawcoloredtext [1, 65, 2, 66] 0 [] = [([65], 0), ([66], 1)] ∧
    (∀ pre b rest, (∀ x ∈ pre, stopsScan x = false) → stopsScan b = true → b ≠ 0 →
      drawcoloredtext (pre ++ b :: rest) 0 [] =
        (if pre = [] then [] else [(pre, 0)]) ++ drawcoloredtext rest (b - 1) []) ∧
    (∀ bs col, ∀ seg ∈ drawcoloredtext bs col [], ∀ x ∈ seg.1, stopsScan x = false) := by
  refine ⟨by decide, ?_, ?_⟩
  · intro pre b rest hpre hb hb0
    rw [dct_append_nonstop pre (b :: rest) 0 [] hpre]
    simp only [List.nil_append, drawcoloredtext, hb, if_true, if_neg hb0]
    by_cases hp : pre = []
    · simp [hp]
    · simp [hp]
  · intro bs col
    exact dct_chunks_nonstop bs col [] (by simp)

/-- Witness for C6 (amended) at `pre = [65]`, `b = 3`, `rest = []`. -/
theorem C6_colors_amended_witness :
    drawcoloredtext [65, 3] 0 [] = [([65], 0)] ++ drawcoloredtext [] 2 [] := by
  have h := C6_colors_amended.2.1 [65] 3 [] (by decide) (by decide) (by decide)
  simpa using h

/-! ## C7 -/

/-- The claim that a resize proposing dimensions at or below 1 yields
exactly a 1-by-1 rectangle fails on the code: with bar height
`bh = 13`, `applysizehints` bumps the proposal `(1, 1)` to
`(13, 13)`. -/
theorem C7_min_size_cex :
    (applysizehints env0 mon0 cl0 100 100 1 1 false).2.2.2.1 = 13 ∧
    (applysizehints env0 mon0 cl0 100 100 1 1 false).2.2.2.2 = 13 ∧
    ¬((applysizehints env0 mon0 cl0 100 100 1 1 false).2.2.2.1 = 1 ∧
      (applysizehints env0 mon0 cl0 100 100 1 1 false).2.2.2.2 = 1) := by
  refine ⟨by decide, by decide, by decide⟩

/-- C7 (amended): for a client whose size hints are not honored
(`resizehints` unset, client not floating, tiled layout selected), a
resize proposing width and height at or below 1 yields exactly the
bar height in both dimensions (the `MAX(1, ·)` floor is applied first,
then both dimensions are bumped up to `bh`); the claimed 1-by-1
minimum holds only when `bh = 1`. -/
theorem C7_min_size_amended (e : Env) (m : GMon) (c : GClient) (x y w h : Int)
    (interact : Bool) (hw : w ≤ 1) (hh : h ≤ 1) (hbh : 1 ≤ e.bh)
    (hhints : (e.resizehints || c.isfloating || m.ltFloating) = false) :
    (applysizehints e m c x y w h interact).2.2.2.1 = e.bh ∧
    (applysizehints e m c x y w h interact).2.2.2.2 = e.bh := by
  unfold applysizehints
  simp only [hhints, Bool.false_eq_true, if_false]
  have hw1 : max 1 w = 1 := max_eq_left hw
  have hh1 : max 1 h = 1 := max_eq_left hh
  rw [hw1, hh1]
  constructor <;> split_ifs <;> omega

/-- Witness for C7 (amended): proposing `(0, -3)` on the concrete
fixtures yields `(13, 13)`, the bar height of `env0`. -/
theorem C7_min_size_amended_witness :
    (applysizehints env0 mon0 cl0 0 0 0 (-3) false).2.2.2.1 = env0.bh ∧
    (applysizehints env0 mon0 cl0 0 0 0 (-3) false).2.2.2.2 = env0.bh :=
  C7_min_size_amended env0 mon0 cl0 0 0 0 (-3) false (by decide) (by decide)
    (by decide) (by decide)

/-! ## C10 -/

/-- C10: `tag(mask)` with no selected client, or with a mask whose
intersection with `TAGMASK` is empty, changes nothing; when it does
act, the selected client's tags are replaced by `mask & TAGMASK`,
a non-empty subset of `TAGMASK`; `toggletag` likewise refuses an
empty resulting mask. -/
theorem C10_tag_guard (ui : Nat) (s : TagState) :
    ((s.sel = none ∨ ui &&& TAGMASK = 0) → tagFn ui s = s) ∧
    (∀ i, s.sel = some i → ui &&& TAGMASK ≠ 0 →
      tagFn ui s = { s with clients := s.clients.set i (ui &&& TAGMASK) } ∧
      ui &&& TAGMASK ≠ 0 ∧ (ui &&& TAGMASK) &&& TAGMASK = ui &&& TAGMASK) ∧
    (∀ i, s.sel = some i → s.clients.getD i 0 ^^^ (ui &&& TAGMASK) = 0 →
      toggletagFn ui s = s) := by
  refine ⟨?_, ?_, ?_⟩
  · intro h
    rcases h with h | h
    · simp [tagFn, h]
    · cases hs : s.sel <;> simp [tagFn, hs, h]
  · intro i hi hne
    refine ⟨by simp [tagFn, hi, hne], hne, ?_⟩
    apply Nat.eq_of_testBit_eq
    intro k
    simp [Nat.testBit_land, Bool.and_assoc]
  · intro i hi hz
    have hz2 : s.clients.getD i 0 = ui &&& TAGMASK := Nat.xor_eq_zero.mp hz
    simp only [List.getD, List.get?_eq_getElem?] at hz2
    simp [toggletagFn, hi, hz2]

/-- Witness for C10: a mask disjoint from `TAGMASK` (`1 << 31`) leaves
the state untouched. -/
theorem C10_tag_guard_witness :
    tagFn (1 <<< 31) ⟨[1], some 0⟩ = ⟨[1], some 0⟩ :=
  (C10_tag_guard (1 <<< 31) ⟨[1], some 0⟩).1 (Or.inr (by decide))

/-! ## C3 -/

/-- The claim that `setlayout(L); setlayout(L)` restores the layout
state fails on the code: from the initial state (current layout index
2, `sellt = 0`), two `setlayout(&layouts[0])` calls leave
`sellt = 1`. -/
theorem C3_setlayout_cex :
    (setlayout (some 0) (setlayout (some 0) initMon)).sellt = 1 ∧
    initMon.sellt = 0 := by
  refine ⟨by decide, by decide⟩


/-- State of the layout fields right after one `setlayout(&layouts[L])`
call: `sellt` flips exactly when the argument differs from the current
layout; the current slot of `lt`, the current pertag `ltidxs` slot and
the symbol all hold `L`. -/
theorem setlayout_post (m : WMon) (L : Nat) :
    (setlayout (some L) m).pertag.curtag = m.pertag.curtag ∧
    (setlayout (some L) m).sellt =
      (if L = m.lt m.sellt then m.sellt else m.pertag.sellts m.pertag.curtag ^^^ 1) ∧
    (setlayout (some L) m).pertag.ltidxs m.pertag.curtag (setlayout (some L) m).sellt
      = L ∧
    (setlayout (some L) m).lt (setlayout (some L) m).sellt = L ∧
    (setlayout (some L) m).ltsymbol = layoutSymbol L := by
  by_cases hL : L = m.lt m.sellt
  · simp only [setlayout, hL, ne_eq, not_true_eq_false, if_false, if_true]
    simp
  · have hne : some L ≠ some (m.lt m.sellt) := by simpa using hL
    simp only [setlayout, ne_eq, hne, not_false_eq_true, if_true, if_neg hL]
    simp

/-- A `setlayout` call whose argument is the current layout, in a
state whose current pertag slot and symbol already agree with it, is
the identity. -/
theorem setlayout_self_noop (m : WMon)
    (h1 : m.pertag.ltidxs m.pertag.curtag m.sellt = m.lt m.sellt)
    (h2 : m.ltsymbol = layoutSymbol (m.lt m.sellt)) :
    setlayout (some (m.lt m.sellt)) m = m := by
  simp only [setlayout, ne_eq, not_true_eq_false, if_false]
  ext1 <;> try rfl
  case lt =>
    funext j
    by_cases hj : j = m.sellt <;> simp [hj, h1]
  case ltsymbol =>
    simp [h1, h2]
  case pertag =>
    ext1 <;> try rfl
    case ltidxs =>
      funext t s
      by_cases ht : t = m.pertag.curtag ∧ s = m.sellt
      · simp [ht.1, ht.2, h1.symm]
      · simp [if_neg ht]

/-- C3 (amended): `setlayout(L)` is idempotent -- the second identical
call changes nothing, so `setlayout(L); setlayout(L)` ends in the state
after one call, not the initial state -- and `sellt` flips exactly when
the argument differs from the current layout (not when it equals
it). -/
theorem C3_setlayout_amended (m : WMon) (L : Nat) :
    setlayout (some L) (setlayout (some L) m) = setlayout (some L) m ∧
    (setlayout (some L) m).sellt =
      (if L = m.lt m.sellt then m.sellt else m.pertag.sellts m.pertag.curtag ^^^ 1) := by
  obtain ⟨hct, hslt, hlti, hlt, hsym⟩ := setlayout_post m L
  refine ⟨?_, hslt⟩
  have h1 : (setlayout (some L) m).pertag.ltidxs (setlayout (some L) m).pertag.curtag
      (setlayout (some L) m).sellt
      = (setlayout (some L) m).lt (setlayout (some L) m).sellt := by
    rw [hct, hlti, hlt]
  have h2 : (setlayout (some L) m).ltsymbol
      = layoutSymbol ((setlayout (some L) m).lt (setlayout (some L) m).sellt) := by
    rw [hsym, hlt]
  have hno := setlayout_self_noop (setlayout (some L) m) h1 h2
  rw [hlt] at hno
  exact hno


/-! ## C5 -/

/-- Behavior of `setmfact` under a tiled layout, phrased through the
proposed value `fp` (the C local `f` after the delta/absolute
interpretation). -/
theorem setmfact_char (m : WMon) (f : ℚ)
    (harr : layoutHasArrange (m.lt m.sellt) = true) (fp : ℚ)
    (hfp : (if f < 1 then f + m.mfact else f - 1) = fp) :
    ((fp < 1/10 ∨ fp > 9/10) → setmfact f m = m) ∧
    (1/10 ≤ fp → fp ≤ 9/10 →
      (setmfact f m).mfact = fp ∧
      (setmfact f m).pertag.mfacts m.pertag.curtag = fp) := by
  simp only [setmfact, harr, Bool.not_true, Bool.false_eq_true, if_false, hfp]
  constructor
  · intro h
    rw [if_pos h]
  · intro h1 h2
    rw [if_neg (by push_neg; constructor <;> linarith)]
    simp

/-- C5: with a tiled (non-floating) layout selected, `setmfact(f)`
with `|f| < 1` proposes `mfact + f`, and with `f > 1` proposes
`f - 1` absolutely; a proposal outside `[0.1, 0.9]` is refused
silently (the state is unchanged), otherwise the new value is stored
in the monitor's `mfact` and in the pertag slot of the current tag. -/
theorem C5_setmfact_spec (m : WMon) (f : ℚ)
    (harr : layoutHasArrange (m.lt m.sellt) = true) :
    (|f| < 1 →
      ((m.mfact + f < 1/10 ∨ m.mfact + f > 9/10) → setmfact f m = m) ∧
      (1/10 ≤ m.mfact + f → m.mfact + f ≤ 9/10 →
        (setmfact f m).mfact = m.mfact + f ∧
        (setmfact f m).pertag.mfacts m.pertag.curtag = m.mfact + f)) ∧
    (1 < f →
      ((f - 1 < 1/10 ∨ f - 1 > 9/10) → setmfact f m = m) ∧
      (1/10 ≤ f - 1 → f - 1 ≤ 9/10 →
        (setmfact f m).mfact = f - 1 ∧
        (setmfact f m).pertag.mfacts m.pertag.curtag = f - 1)) := by
  constructor
  · intro hflt
    have hf1 : f < 1 := (abs_lt.mp hflt).2
    exact setmfact_char m f harr (m.mfact + f) (by rw [if_pos hf1, add_comm])
  · intro hgt
    exact setmfact_char m f harr (f - 1) (by rw [if_neg (not_lt.mpr (le_of_lt hgt))])

/-- Witness for C5: `setmfact(0.2)` from the initial state
(`mfact = 0.55`) stores `0.75` in the monitor and its pertag slot. -/
theorem C5_setmfact_spec_witness :
    (setmfact (1/5) initMon).mfact = initMon.mfact + 1/5 ∧
    (setmfact (1/5) initMon).pertag.mfacts initMon.pertag.curtag
      = initMon.mfact + 1/5 :=
  ((C5_setmfact_spec initMon (1/5) (by decide)).1
      (by rw [abs_of_nonneg (by norm_num)]; norm_num)).2
    (by norm_num [initMon, mfact0]) (by norm_num [initMon, mfact0])


/-! ## C1 -/

set_option maxHeartbeats 2000000 in
/-- C1: on a monitor with work area `(0,0,1000,600)`, `mfact = 0.5`,
`nmaster = 1`, border width 0 and size hints not honored, `tile` gives
three clients the geometries `(0,0,500,600)`, `(500,0,500,300)`,
`(500,300,500,300)`; in general the master width is
`ww * mfact` truncated to int (0 when `nmaster == 0`) when the tiled
count exceeds `nmaster`, and the full work-area width otherwise. -/
theorem C1_tile_math :
    List.map (fun c => (c.x, c.y, c.w, c.h)) (tile env0 mon0 [cl0, cl0, cl0]) =
      [(0, 0, 500, 600), (500, 0, 500, 300), (500, 300, 500, 300)] ∧
    (∀ (m : GMon) (n : Int),
      (n > m.nmaster → m.nmaster ≠ 0 → tileMW m n = ratTrunc ((m.ww : ℚ) * m.mfact)) ∧
      (n > m.nmaster → m.nmaster = 0 → tileMW m n = 0) ∧
      (n ≤ m.nmaster → tileMW m n = m.ww)) := by
  constructor
  · norm_num [tile, tileLoop, tiledClients, tileMW, resize, applysizehints,
      applyHintsBlock, resizeclient, ratTrunc, cWIDTH, cHEIGHT, isvisible, Int.tdiv,
      mon0, env0, cl0]
  · intro m n
    refine ⟨?_, ?_, ?_⟩
    · intro h1 h2
      simp [tileMW, h1, h2]
    · intro h1 h2
      rw [h2] at h1
      simp [tileMW, h1, h2]
    · intro h1
      simp [tileMW, not_lt.mpr h1]

/-- Witness for C1's general master-width clause at `n = 3` tiled
clients on the concrete monitor: `tileMW` is `ww * mfact` truncated,
which evaluates to 500. -/
theorem C1_tile_math_witness :
    tileMW mon0 3 = ratTrunc ((mon0.ww : ℚ) * mon0.mfact) ∧
    ratTrunc ((mon0.ww : ℚ) * mon0.mfact) = 500 :=
  ⟨(C1_tile_math.2 mon0 3).1 (by decide) (by decide),
    by norm_num [mon0, ratTrunc, Int.tdiv]⟩


/-! ## C8 -/

/-- Closed form of the `gaplessgrid` loop state before client `i`:
with `q = n / cols` and `r = n % cols`, the first `cols - r` columns
are filled with `q` clients each, then the remaining `r` columns with
`q + 1` clients each, column-major. -/
def ggStateClosed (n cols i : Nat) : GGState :=
  let q := n / cols
  let r := n % cols
  let k := cols - r
  if i ≤ k * q ∨ r = 0 then ⟨q, i % q, i / q⟩
  else ⟨q + 1, (i - k * q) % (q + 1), k + (i - k * q) / (q + 1)⟩

theorem succ_div_of_lt {q d m : Nat} (hm : m + 1 < q) :
    (q * d + m + 1) / q = d := by
  have h0 : 0 < q := by omega
  rw [Nat.add_assoc, Nat.mul_add_div h0, Nat.div_eq_of_lt hm, Nat.add_zero]

theorem succ_mod_of_lt {q d m : Nat} (hm : m + 1 < q) :
    (q * d + m + 1) % q = m + 1 := by
  rw [Nat.add_assoc, Nat.mul_add_mod, Nat.mod_eq_of_lt hm]

theorem succ_div_of_eq {q d m : Nat} (hm : m + 1 = q) :
    (q * d + m + 1) / q = d + 1 := by
  have h0 : 0 < q := by omega
  have : q * d + m + 1 = q * (d + 1) := by rw [Nat.mul_succ]; omega
  rw [this, Nat.mul_div_cancel_left _ h0]

theorem succ_mod_of_eq {q d m : Nat} (hm : m + 1 = q) :
    (q * d + m + 1) % q = 0 := by
  have : q * d + m + 1 = q * (d + 1) := by rw [Nat.mul_succ]; omega
  rw [this, Nat.mul_mod_right]

theorem ggState_eq_closed (n cols : Nat) (h1 : 1 ≤ cols) (h2 : cols ≤ n) :
    ∀ i, i ≤ n → ggState n cols i = ggStateClosed n cols i := by
  have hcols0 : 0 < cols := h1
  intro i
  induction i with
  | zero =>
    intro _
    simp [ggState, ggStateClosed]
  | succ i ih =>
    intro hin
    have hi : i ≤ n := Nat.le_of_succ_le hin
    rw [ggState, ih hi]
    simp only [ggStateClosed, ggStep, gt_iff_lt]
    obtain ⟨q, hq⟩ : ∃ q, n / cols = q := ⟨_, rfl⟩
    obtain ⟨r, hr⟩ : ∃ r, n % cols = r := ⟨_, rfl⟩
    have hclq : cols * q + r = n := by rw [← hq, ← hr]; exact Nat.div_add_mod n cols
    have hrlt : r < cols := by rw [← hr]; exact Nat.mod_lt n hcols0
    have hq0 : 0 < q := by rw [← hq]; exact (Nat.one_le_div_iff hcols0).mpr h2
    have hkled : (cols - r) * q ≤ cols * q := Nat.mul_le_mul_right q (Nat.sub_le cols r)
    simp only [hq, hr]
    by_cases hr0 : r = 0
    · -- cols divides n: every column has q rows, the growth test never fires
      have hkq : (cols - r) * q = n := by
        rw [hr0, Nat.sub_zero]
        omega
      rw [if_pos (Or.inr hr0), if_pos (Or.inr hr0)]
      try dsimp only
      have hiq : i % q < q := Nat.mod_lt i hq0
      have hidm : q * (i / q) + i % q = i := Nat.div_add_mod i q
      have hdk : i / q < cols - r := by
        rw [Nat.div_lt_iff_lt_mul hq0]
        omega
      rw [if_neg (by omega : ¬ cols - r < i / q + 1)]
      by_cases hge : q ≤ i % q + 1
      · have hmq : i % q + 1 = q := by omega
        have e : i + 1 = q * (i / q) + i % q + 1 := by omega
        rw [if_pos hge, e, succ_div_of_eq hmq, succ_mod_of_eq hmq]
      · have e : i + 1 = q * (i / q) + i % q + 1 := by omega
        rw [if_neg hge, e, succ_div_of_lt (by omega), succ_mod_of_lt (by omega)]
    · -- cols does not divide n
      by_cases hik : i + 1 ≤ (cols - r) * q
      · -- still inside the first cols - r columns
        rw [if_pos (Or.inl (by omega : i ≤ (cols - r) * q)), if_pos (Or.inl hik)]
        try dsimp only
        have hiq : i % q < q := Nat.mod_lt i hq0
        have hidm : q * (i / q) + i % q = i := Nat.div_add_mod i q
        have hdk : i / q < cols - r := by
          rw [Nat.div_lt_iff_lt_mul hq0]
          omega
        rw [if_neg (by omega : ¬ cols - r < i / q + 1)]
        by_cases hge : q ≤ i % q + 1
        · have hmq : i % q + 1 = q := by omega
          have e : i + 1 = q * (i / q) + i % q + 1 := by omega
          rw [if_pos hge, e, succ_div_of_eq hmq, succ_mod_of_eq hmq]
        · have e : i + 1 = q * (i / q) + i % q + 1 := by omega
          rw [if_neg hge, e, succ_div_of_lt (by omega), succ_mod_of_lt (by omega)]
      · by_cases hieq : i = (cols - r) * q
        · -- the boundary step: the growth test fires, rows grows to q + 1
          rw [if_pos (Or.inl (by omega : i ≤ (cols - r) * q)),
            if_neg (show ¬(i + 1 ≤ (cols - r) * q ∨ r = 0) by push_neg; exact ⟨by omega, hr0⟩)]
          try dsimp only
          have hkk : i / q = cols - r := by rw [hieq]; exact Nat.mul_div_cancel _ hq0
          have hkm : i % q = 0 := by rw [hieq]; exact Nat.mul_mod_left _ q
          rw [hkk, hkm, if_pos (by omega : cols - r < cols - r + 1)]
          try dsimp only
          rw [if_neg (by omega : ¬ 0 + 1 ≥ q + 1)]
          have e1 : i + 1 - (cols - r) * q = 1 := by omega
          rw [e1, Nat.mod_eq_of_lt (by omega), Nat.div_eq_of_lt (by omega)]
          simp
        · -- strictly past the boundary: rows is already q + 1 and stays
          have hgt : (cols - r) * q < i := by omega
          rw [if_neg (show ¬(i ≤ (cols - r) * q ∨ r = 0) by push_neg; exact ⟨by omega, hr0⟩),
            if_neg (show ¬(i + 1 ≤ (cols - r) * q ∨ r = 0) by push_neg; exact ⟨by omega, hr0⟩)]
          try dsimp only
          rw [ite_self]
          have hjq : (i - (cols - r) * q) % (q + 1) < q + 1 :=
            Nat.mod_lt _ (by omega)
          have hjdm : (q + 1) * ((i - (cols - r) * q) / (q + 1))
              + (i - (cols - r) * q) % (q + 1) = i - (cols - r) * q :=
            Nat.div_add_mod _ (q + 1)
          by_cases hge : q + 1 ≤ (i - (cols - r) * q) % (q + 1) + 1
          · have hmq : (i - (cols - r) * q) % (q + 1) + 1 = q + 1 := by omega
            have e : i + 1 - (cols - r) * q
                = (q + 1) * ((i - (cols - r) * q) / (q + 1))
                  + (i - (cols - r) * q) % (q + 1) + 1 := by omega
            rw [if_pos hge, e, succ_div_of_eq hmq, succ_mod_of_eq hmq]
            simp [Nat.add_assoc]
          · have e : i + 1 - (cols - r) * q
                = (q + 1) * ((i - (cols - r) * q) / (q + 1))
                  + (i - (cols - r) * q) % (q + 1) + 1 := by omega
            rw [if_neg hge, e, succ_div_of_lt (by omega), succ_mod_of_lt (by omega)]

theorem ggColsAux_eq (n : Nat) (hn : 1 ≤ n) :
    ∀ fuel c, Nat.sqrt (n - 1) + 1 - c ≤ fuel → c ≤ Nat.sqrt (n - 1) + 1 →
      ggColsAux n c = Nat.sqrt (n - 1) + 1 := by
  have hF2 : n ≤ (Nat.sqrt (n - 1) + 1) * (Nat.sqrt (n - 1) + 1) := by
    have h := Nat.lt_succ_sqrt (n - 1)
    simp only [Nat.succ_eq_add_one] at h
    omega
  have hF1 : ∀ c, c < Nat.sqrt (n - 1) + 1 → c * c < n := by
    intro c hc
    have hc' : c ≤ Nat.sqrt (n - 1) := by omega
    have h1 : c * c ≤ Nat.sqrt (n - 1) * Nat.sqrt (n - 1) := Nat.mul_le_mul hc' hc'
    have h2 : Nat.sqrt (n - 1) * Nat.sqrt (n - 1) ≤ n - 1 := Nat.sqrt_le (n - 1)
    omega
  have hF3 : Nat.sqrt (n - 1) + 1 ≤ n / 2 + 1 := by
    have hh : 2 * (n / 2) + 1 ≥ n := by omega
    have hx : (n / 2 + 1) * (n / 2 + 1) = (n / 2) * (n / 2) + 2 * (n / 2) + 1 := by
      ring
    have hlt : Nat.sqrt (n - 1) < n / 2 + 1 := by
      rw [Nat.sqrt_lt]
      omega
    omega
  intro fuel
  induction fuel with
  | zero =>
    intro c hfc hc
    have hcs : c = Nat.sqrt (n - 1) + 1 := by omega
    unfold ggColsAux
    by_cases hcn : c ≤ n / 2
    · rw [if_pos hcn, if_pos (by rw [hcs]; exact hF2), hcs]
    · rw [if_neg hcn, hcs]
  | succ fuel ihf =>
    intro c hfc hc
    unfold ggColsAux
    by_cases hcn : c ≤ n / 2
    · by_cases hge : n ≤ c * c
      · have hcs : c = Nat.sqrt (n - 1) + 1 := by
          have hnot : ¬ c < Nat.sqrt (n - 1) + 1 := fun hlt => by
            have := hF1 c hlt
            omega
          omega
        rw [if_pos hcn, if_pos hge, hcs]
      · have hlt : c < Nat.sqrt (n - 1) + 1 := by
          have : c ≠ Nat.sqrt (n - 1) + 1 := fun he => hge (he ▸ hF2)
          omega
        rw [if_pos hcn, if_neg hge]
        exact ihf (c + 1) (by omega) (by omega)
    · have hcs : c = Nat.sqrt (n - 1) + 1 := by omega
      rw [if_neg hcn, hcs]

theorem ggCols_eq_sqrt (n : Nat) (hn : 1 ≤ n) (h5 : n ≠ 5) :
    ggCols n = Nat.sqrt (n - 1) + 1 := by
  unfold ggCols
  rw [if_neg h5]
  exact ggColsAux_eq n hn (Nat.sqrt (n - 1) + 1) 0 (by omega) (by omega)

theorem ggCols_bounds (n : Nat) (hn : 1 ≤ n) : 1 ≤ ggCols n ∧ ggCols n ≤ n := by
  by_cases h5 : n = 5
  · subst h5
    refine ⟨by decide, by decide⟩
  · rw [ggCols_eq_sqrt n hn h5]
    have := Nat.sqrt_le_self (n - 1)
    omega

/-- C8: `gaplessgrid` uses `cols = ceil(sqrt(n))` columns
(characterized by `(cols - 1)^2 < n ≤ cols^2`) except `n == 5` which
uses 2; starting from `rows = n / cols` it fills clients column-major,
the first `cols - n % cols` columns holding `n / cols` clients and the
last `n % cols` columns holding one more (the loop state equals its
closed form); with exactly 5 clients on the `(0,0,1000,600)` monitor,
column 0 holds 2 clients of height 300 and column 1 holds 3 clients of
height 200. -/
theorem C8_gaplessgrid_spec :
    (∀ n, 1 ≤ n → n ≠ 5 →
      n ≤ ggCols n * ggCols n ∧ (ggCols n - 1) * (ggCols n - 1) < n) ∧
    ggCols 5 = 2 ∧
    (∀ n, 1 ≤ n → ∀ i, i ≤ n →
      ggState n (ggCols n) i = ggStateClosed n (ggCols n) i) ∧
    List.map (fun c => (c.x, c.y, c.w, c.h))
        (gaplessgrid env0 mon0 [cl0, cl0, cl0, cl0, cl0]) =
      [(0, 0, 500, 300), (0, 300, 500, 300), (500, 0, 500, 200),
        (500, 200, 500, 200), (500, 400, 500, 200)] := by
  refine ⟨?_, by decide, ?_, ?_⟩
  · intro n h1 h5
    rw [ggCols_eq_sqrt n h1 h5]
    have hF2 := Nat.lt_succ_sqrt (n - 1)
    simp only [Nat.succ_eq_add_one] at hF2
    have hle : Nat.sqrt (n - 1) * Nat.sqrt (n - 1) ≤ n - 1 := Nat.sqrt_le (n - 1)
    constructor
    · omega
    · simpa using hle.trans_lt (by omega)
  · intro n h1 i hi
    obtain ⟨hc1, hc2⟩ := ggCols_bounds n h1
    exact ggState_eq_closed n (ggCols n) hc1 hc2 i hi
  · decide

/-- Witness for C8's general clauses at `n = 7`, `i = 3`:
`ggCols 7 = 3` (the ceiling of `sqrt 7`) and the loop state before
client 3 equals its closed form. -/
theorem C8_gaplessgrid_spec_witness :
    ggState 7 (ggCols 7) 3 = ggStateClosed 7 (ggCols 7) 3 ∧ ggCols 7 = 3 :=
  ⟨C8_gaplessgrid_spec.2.2.1 7 (by decide) 3 (by decide),
    by
      rw [ggCols_eq_sqrt 7 (by decide) (by decide)]
      show Nat.sqrt 6 + 1 = 3
      have h1 : 2 ≤ Nat.sqrt 6 := Nat.le_sqrt.mpr (by norm_num)
      have h2 : Nat.sqrt 6 < 3 := Nat.sqrt_lt.mpr (by norm_num)
      omega⟩

end Rawm
